import Mathlib

/-!
Verification of the resilience core of `breeze_trader_enhanced`
(`breeze_api.py`, `breeze_api_complete.py`, `risk_monitor.py`).

The Python source is shallowly embedded: floats that only ever hold
wall-clock times, prices and percentages become `ℚ`; dict-shaped API
responses become the `Resp` structure; an operation guarded by the retry
wrapper becomes a function from the attempt number to what that attempt
does (`AttemptOutcome`).  Every definition mirrors the control flow of the
corresponding Python function; field and function names follow the source.
-/

set_option autoImplicit false

/-! ## Python string helpers

`p in s` on Python strings is substring containment; `s.lower()` maps
ASCII letters to lower case (the classifier patterns are pure ASCII). -/

/-- `startsWithL p s` : the char list `p` is a prefix of `s`. -/
def startsWithL : List Char → List Char → Bool
  | [], _ => true
  | _ :: _, [] => false
  | a :: as, b :: bs => a == b && startsWithL as bs

/-- `containsL p s` : the char list `p` occurs contiguously inside `s`
(Python `p in s`). -/
def containsL (p : List Char) : List Char → Bool
  | [] => p.isEmpty
  | c :: rest => startsWithL p (c :: rest) || containsL p rest

/-- Python `p in s` for strings. -/
def pyIn (p s : String) : Bool := containsL p.toList s.toList

/-- Python `s.lower()` (ASCII). -/
def lowerStr (s : String) : String := String.mk (s.toList.map Char.toLower)

/-- `any(p in msg for p in patterns)` over the lowered message, the common
shape of both classifiers. -/
def msgHas (patterns : List String) (msg : String) : Bool :=
  patterns.any (fun p => pyIn p (lowerStr msg))

/-! ## Error classifier (`breeze_api.py` lines 30-49) -/

/-- `TRANSIENT_PATTERNS` of `breeze_api.py`. -/
def TRANSIENT_PATTERNS : List String :=
  ["service unavailable", "gateway timeout", "bad gateway",
   "too many requests", "connection reset", "connection refused",
   "read timed out", "temporary failure", "503", "502", "504", "429"]

/-- `PERMANENT_PATTERNS` of `breeze_api.py`. -/
def PERMANENT_PATTERNS : List String :=
  ["invalid session", "session expired", "unauthorized",
   "invalid api key", "forbidden", "not connected"]

/-- `_is_transient` of `breeze_api.py`: `str(e).lower()` contains a
transient pattern. -/
def is_transient (msg : String) : Bool := msgHas TRANSIENT_PATTERNS msg

/-- `_is_permanent` of `breeze_api.py`. -/
def is_permanent (msg : String) : Bool := msgHas PERMANENT_PATTERNS msg

/-! ## Error classifier (`breeze_api_complete.py` lines 93-116) -/

/-- `TRANSIENT_PATTERNS` of `breeze_api_complete.py`: the `breeze_api.py`
set plus `"network error"` and bare `"timeout"`. -/
def TRANSIENT_PATTERNS_COMPLETE : List String :=
  ["service unavailable", "gateway timeout", "bad gateway",
   "too many requests", "connection reset", "connection refused",
   "read timed out", "temporary failure", "503", "502", "504", "429",
   "network error", "timeout"]

/-- `PERMANENT_PATTERNS` of `breeze_api_complete.py`. -/
def PERMANENT_PATTERNS_COMPLETE : List String :=
  ["invalid session", "session expired", "unauthorized",
   "invalid api key", "forbidden", "not connected",
   "authentication failed", "invalid credentials"]

/-- `is_transient_error` of `breeze_api_complete.py`. -/
def is_transient_error (msg : String) : Bool :=
  msgHas TRANSIENT_PATTERNS_COMPLETE msg

/-- `is_permanent_error` of `breeze_api_complete.py`. -/
def is_permanent_error (msg : String) : Bool :=
  msgHas PERMANENT_PATTERNS_COMPLETE msg

/-! ## Resilient call executor: `retry_api_call` (`breeze_api.py` lines 56-95)

The wrapped operation is modelled as a function from the attempt number
(1-based, as in the Python `for attempt in range(1, max_attempts + 1)`)
to what that attempt does: raise an exception carrying a message, or
return a response dict.  Sleeping and the backoff-delay bookkeeping have
no observable effect on the returned value and are dropped. -/

/-- The `{success, data, message, error_code}` dict every client method
resolves to; `data` carries no information the claims depend on and is
dropped. -/
structure Resp where
  success : Bool
  message : String
  errorCode : Option String
  deriving DecidableEq

/-- One attempt of a wrapped operation: `raises msg` models the function
raising an exception `e` with `str(e) = msg`; `returns r` models a normal
return of the dict `r`. -/
inductive AttemptOutcome where
  | raises (msg : String)
  | returns (r : Resp)
  deriving DecidableEq

/-- The final `{"success": False, ..., "error_code": "MAX_RETRIES"}` dict,
built from `max_attempts` and `str(last_exc)` (`"None"` when no exception
was recorded, as Python would render it). -/
def mkMaxRetries (max_attempts : ℕ) (last_exc : Option String) : Resp :=
  ⟨false,
   "Failed after " ++ toString max_attempts ++ " attempts: " ++
     (match last_exc with | some s => s | none => "None"),
   some "MAX_RETRIES"⟩

/-- The loop body of `retry_api_call`'s `wrapper`.  `fuel` is the number of
loop iterations still to run (initially `max_attempts`), `attempt` the
1-based attempt counter, `last_exc` the last recorded exception message.
Reaching `fuel = 0` is the `for` loop finishing, which returns the
`MAX_RETRIES` dict. -/
def retryLoop (op : ℕ → AttemptOutcome) (max_attempts : ℕ) :
    ℕ → ℕ → Option String → Resp
  | attempt, fuel + 1, last_exc =>
    match op attempt with
    | .returns r =>
      -- `if isinstance(result, dict) and not result.get("success", True):`
      -- nested with the transient check and `attempt < max_attempts`
      if r.success = false ∧ is_transient r.message = true ∧
          attempt < max_attempts then
        retryLoop op max_attempts (attempt + 1) fuel last_exc
      else r
    | .raises msg =>
      if is_permanent msg = true then ⟨false, msg, some "PERMANENT"⟩
      else if attempt < max_attempts then
        retryLoop op max_attempts (attempt + 1) fuel (some msg)
      else mkMaxRetries max_attempts (some msg)
  | _, 0, last_exc => mkMaxRetries max_attempts last_exc

/-- `retry_api_call(max_attempts)(func)` applied: run the loop from
attempt 1 with `max_attempts` iterations of fuel. -/
def retry_api_call (max_attempts : ℕ) (op : ℕ → AttemptOutcome) : Resp :=
  retryLoop op max_attempts 1 max_attempts none

/-- Number of invocations of the wrapped operation made by `retryLoop`:
same recursion structure, counting one call per executed iteration. -/
def retryCalls (op : ℕ → AttemptOutcome) (max_attempts : ℕ) : ℕ → ℕ → ℕ
  | attempt, fuel + 1 =>
    match op attempt with
    | .returns r =>
      if r.success = false ∧ is_transient r.message = true ∧
          attempt < max_attempts then
        1 + retryCalls op max_attempts (attempt + 1) fuel
      else 1
    | .raises msg =>
      if is_permanent msg = true then 1
      else if attempt < max_attempts then
        1 + retryCalls op max_attempts (attempt + 1) fuel
      else 1
  | _, 0 => 0

/-- Invocation count of `retry_api_call`. -/
def retry_calls (max_attempts : ℕ) (op : ℕ → AttemptOutcome) : ℕ :=
  retryCalls op max_attempts 1 max_attempts

/-! ## Idempotency guard (`breeze_api.py` lines 120-147)

`_recent` is a dict from key to reservation time; embedded as an
association list (uniqueness of keys is maintained by the operations
themselves).  `time.time()` values are `ℚ`. -/

structure IdempotencyGuard where
  recent : List (String × ℚ)
  window : ℚ
  deriving DecidableEq

/-- `key in self._recent`. -/
def hasKey (l : List (String × ℚ)) (k : String) : Bool :=
  l.any (fun kt => decide (kt.1 = k))

/-- `check_and_reserve(key)` at wall-clock time `now`: evict entries older
than the window, reject if the key is still present, otherwise record it.
Returns the Python return value and the updated guard. -/
def check_and_reserve (g : IdempotencyGuard) (key : String) (now : ℚ) :
    Bool × IdempotencyGuard :=
  let pruned := g.recent.filter (fun kt => decide (now - kt.2 < g.window))
  if hasKey pruned key = true then (false, { g with recent := pruned })
  else (true, { g with recent := (key, now) :: pruned })

/-- `release(key)`: `self._recent.pop(key, None)`. -/
def release (g : IdempotencyGuard) (key : String) : IdempotencyGuard :=
  { g with recent := g.recent.filter (fun kt => !(decide (kt.1 = key))) }

/-! ## Gateway operations (`breeze_api.py` lines 177-382)

`BreezeAPIClient` is reduced to its connection flag (`is_connected`
requires `self.connected and self.breeze is not None`; the two are set
together by `connect`).  The transport call is a `CallResult`: a normal
return, or a raised exception carrying a message together with a ghost
`dispatched` flag recording whether the transport call was already in
flight when the exception arose — the Python code has no access to this
flag, which is exactly what claim C1 is about.  The `ℕ` component of each
result counts `rate_limiter.wait()` calls (token consumptions); `GResult`
distinguishes a structured return from an exception escaping the method. -/

structure Client where
  connected : Bool
  deriving DecidableEq

/-- `C.ErrorMessages.NOT_CONNECTED`, raised by `_require_connection`. -/
def NOT_CONNECTED : String := "Not connected to Breeze API"

inductive CallResult where
  | ok (data : String)
  | raises (dispatched : Bool) (msg : String)
  deriving DecidableEq

inductive GResult where
  | resp (r : Resp)
  | raisesOut (msg : String)
  deriving DecidableEq

/-- `place_order` (lines 306-333): `_require_connection` (outside any
`try`), idempotency reservation, duplicate rejection, then the guarded
transport call; any exception in the `try` releases the reservation and is
converted by `_err(C.ErrorMessages.ORDER_FAILED…, "ORDER_FAILED")`.  The
idempotency key (a hash of the order signature and minute bucket) is taken
as a parameter.  `_ok`'s `data` payload is dropped from `Resp`. -/
def place_order (c : Client) (g : IdempotencyGuard) (idem_key : String)
    (now : ℚ) (call : CallResult) : GResult × IdempotencyGuard × ℕ :=
  if c.connected = false then (.raisesOut NOT_CONNECTED, g, 0)
  else
    let r := check_and_reserve g idem_key now
    if r.1 = false then
      (.resp ⟨false,
        "Duplicate order detected. Same order was placed within the last 60 seconds.",
        some "DUPLICATE_ORDER"⟩, r.2, 0)
    else
      match call with
      | .ok _ => (.resp ⟨true, "", none⟩, r.2, 1)
      | .raises _ m =>
        (.resp ⟨false, "Order placement failed: " ++ m, some "ORDER_FAILED"⟩,
         release r.2 idem_key, 1)

/-- `cancel_order` (lines 351-358): `_require_connection` outside the
`try`, then the guarded call; exceptions inside the `try` become
`_err(C.ErrorMessages.CANCEL_FAILED…)` with no error code. -/
def cancel_order (c : Client) (call : CallResult) : GResult × ℕ :=
  if c.connected = false then (.raisesOut NOT_CONNECTED, 0)
  else
    match call with
    | .ok _ => (.resp ⟨true, "", none⟩, 1)
    | .raises _ m =>
      (.resp ⟨false, "Order cancellation failed: " ++ m, none⟩, 1)

/-- `modify_order` (lines 360-372), same shape as `cancel_order`. -/
def modify_order (c : Client) (call : CallResult) : GResult × ℕ :=
  if c.connected = false then (.raisesOut NOT_CONNECTED, 0)
  else
    match call with
    | .ok _ => (.resp ⟨true, "", none⟩, 1)
    | .raises _ m =>
      (.resp ⟨false, "Order modification failed: " ++ m, none⟩, 1)

/-- Body of a `@retry_api_call`-decorated read (`get_funds`,
`get_positions`, `get_quotes`, …): `_require_connection` raises before the
rate limiter is touched; otherwise the attempt is the remote call. -/
def read_body (c : Client) (remote : ℕ → AttemptOutcome) (n : ℕ) :
    AttemptOutcome :=
  if c.connected = false then .raises NOT_CONNECTED else remote n

/-- A decorated Gateway read: the retry wrapper around the body, plus the
number of `rate_limiter.wait()` calls it makes — one per executed attempt
when connected (`wait` precedes the remote call inside the method), none
when `_require_connection` raises first. -/
def gateway_read (c : Client) (max_attempts : ℕ)
    (remote : ℕ → AttemptOutcome) : GResult × ℕ :=
  (.resp (retry_api_call max_attempts (read_body c remote)),
   if c.connected = false then 0
   else retry_calls max_attempts (read_body c remote))

/-! ## Circuit breaker (`breeze_api_complete.py` lines 288-345)

`call` is modelled as one step of a state machine: given the wall-clock
time and whether the wrapped function would succeed, it yields the next
breaker state and what happened — `rejected` (breaker open, wrapped
function NOT invoked), `succeeded`, or `failed` (invoked and re-raised).
`expected_exception` defaults to `Exception`, so every failure counts. -/

inductive CBState where
  | Closed
  | Open
  | HalfOpen
  deriving DecidableEq

inductive CBOutcome where
  | rejected
  | succeeded
  | failed
  deriving DecidableEq

structure CircuitBreaker where
  failure_threshold : ℕ
  recovery_timeout : ℚ
  failure_count : ℕ
  last_failure_time : Option ℚ
  state : CBState
  deriving DecidableEq

/-- `_on_success`: zero the failure count; leave `HALF_OPEN` for
`CLOSED`. -/
def cb_on_success (cb : CircuitBreaker) : CircuitBreaker :=
  { cb with failure_count := 0,
            state := if cb.state = .HalfOpen then .Closed else cb.state }

/-- `_on_failure`: bump the count, stamp the failure time, open at the
threshold. -/
def cb_on_failure (cb : CircuitBreaker) (now : ℚ) : CircuitBreaker :=
  { cb with failure_count := cb.failure_count + 1,
            last_failure_time := some now,
            state := if cb.failure_threshold ≤ cb.failure_count + 1
                     then .Open else cb.state }

/-- `call(func)` at time `now` where `func` would succeed iff `succeeds`:
an `OPEN` breaker either lets a half-open probe through (recovery timeout
elapsed) or rejects without invoking `func`. -/
def cb_call (cb : CircuitBreaker) (now : ℚ) (succeeds : Bool) :
    CircuitBreaker × CBOutcome :=
  let cb1 := if cb.state = .Open ∧
      cb.recovery_timeout ≤ now - (cb.last_failure_time.getD 0)
    then { cb with state := .HalfOpen } else cb
  if cb1.state = .Open then (cb1, .rejected)
  else if succeeds then (cb_on_success cb1, .succeeded)
  else (cb_on_failure cb1 now, .failed)

/-- Invariant of every reachable breaker: away from `Closed` the failure
count has reached the threshold (`Open` is entered only at the threshold,
`HalfOpen` only from `Open`, and the count is not reset in between). -/
def CBInv (cb : CircuitBreaker) : Prop :=
  cb.state ≠ .Closed → cb.failure_threshold ≤ cb.failure_count

/-! ## Token-bucket rate limiter (`breeze_api_complete.py` lines 213-281)

`tokens` is a float in the source (it becomes fractional after a refill);
all numeric fields are `ℚ` here.  `_refill` only acts once a full
`refill_interval` has elapsed — the fact claim C8 trips over. -/

structure TokenBucketRateLimiter where
  rate : ℚ
  capacity : ℚ
  refill_interval : ℚ
  tokens : ℚ
  last_refill : ℚ
  deriving DecidableEq

/-- `_refill` at wall-clock time `now`. -/
def tb_refill (tb : TokenBucketRateLimiter) (now : ℚ) :
    TokenBucketRateLimiter :=
  let elapsed := now - tb.last_refill
  if tb.refill_interval ≤ elapsed then
    { tb with
      tokens := min tb.capacity
        (tb.tokens + (elapsed / tb.refill_interval) * tb.rate),
      last_refill := now }
  else tb

/-- `acquire(tokens)` at time `now`: refill, then take if enough. -/
def acquire (tb : TokenBucketRateLimiter) (now : ℚ) (tokens : ℚ) :
    Bool × TokenBucketRateLimiter :=
  let tb1 := tb_refill tb now
  if tokens ≤ tb1.tokens then (true, { tb1 with tokens := tb1.tokens - tokens })
  else (false, tb1)

/-- `n` successive `acquire(1)` calls, all at time `now`. -/
def acquireN (tb : TokenBucketRateLimiter) (now : ℚ) : ℕ →
    TokenBucketRateLimiter
  | 0 => tb
  | n + 1 => acquireN (acquire tb now 1).2 now n

/-! ## Risk monitor (`risk_monitor.py`)

`MonitoredPosition` keeps the fields the stop logic reads and writes;
the instrument-identification fields (`stock_code`, `exchange`, `expiry`,
`strike`, `option_type`, `quantity`) and the `last_update` timestamp play
no part in any stop decision and are omitted.  A poll cycle for one
position whose price fetch succeeded with last-traded price `ltp` is
`_update_price` (the `ltp > 0` body) followed by `_check_stop`; `poll_step`
is the `_check_all` treatment of a single position, skipping it once
triggered.  The `Bool` a step returns is whether a stop alert was
emitted. -/

structure MonitoredPosition where
  position_id : String
  position_type : String
  avg_price : ℚ
  stop_loss_price : Option ℚ
  trailing_stop_pct : Option ℚ
  high_water_mark : ℚ
  current_price : ℚ
  stop_triggered : Bool
  deriving DecidableEq

/-- `_update_price`, given that the quote fetch succeeded and parsed to
`ltp`: record the price and advance the high-water mark (running minimum
for shorts, running maximum otherwise). -/
def update_price (pos : MonitoredPosition) (ltp : ℚ) : MonitoredPosition :=
  if 0 < ltp then
    let pos1 := { pos with current_price := ltp }
    if pos1.position_type = "short" then
      if ltp < pos1.high_water_mark ∨ pos1.high_water_mark ≤ 0 then
        { pos1 with high_water_mark := ltp } else pos1
    else
      if pos1.high_water_mark < ltp then
        { pos1 with high_water_mark := ltp } else pos1
  else pos

/-- `_check_stop`: evaluate the fixed rule when `stop_loss_price` is set,
the trailing rule otherwise (Python truthiness `pos.trailing_stop_pct and
pos.trailing_stop_pct > 0` collapses to `0 < tp`); on trigger, latch
`stop_triggered` and emit the alert (the returned `Bool`). -/
def check_stop (pos : MonitoredPosition) : MonitoredPosition × Bool :=
  if pos.current_price ≤ 0 then (pos, false)
  else
    let triggered :=
      match pos.stop_loss_price with
      | some sp =>
        if pos.position_type = "short" ∧ sp ≤ pos.current_price then true
        else if pos.position_type = "long" ∧ pos.current_price ≤ sp then true
        else false
      | none =>
        match pos.trailing_stop_pct with
        | some tp =>
          if 0 < tp ∧ 0 < pos.high_water_mark then
            if pos.position_type = "short" then
              decide (pos.high_water_mark * (1 + tp) ≤ pos.current_price)
            else
              decide (pos.current_price ≤ pos.high_water_mark * (1 - tp))
          else false
        | none => false
    if triggered = true then ({ pos with stop_triggered := true }, true)
    else (pos, false)

/-- One `_check_all` iteration for one position: skip if already
triggered, otherwise update the price and evaluate the stop. -/
def poll_step (pos : MonitoredPosition) (ltp : ℚ) : MonitoredPosition × Bool :=
  if pos.stop_triggered = true then (pos, false)
  else check_stop (update_price pos ltp)

/-- Successive poll cycles over a list of fetched prices; the list of
per-cycle alert flags. -/
def run_prices : MonitoredPosition → List ℚ → List Bool
  | _, [] => []
  | pos, p :: ps =>
    let s := poll_step pos p
    s.2 :: run_prices s.1 ps

/-! ## Position-map operations of the monitor (`risk_monitor.py` lines
59-89)

The monitor's `_positions` dict is a map from position id to
`MonitoredPosition`; `add_position` fills `current_price` and
`high_water_mark` with the average price, `set_stop_loss` clears the
trailing rule, `set_trailing_stop` clears the fixed rule and re-bases the
high-water mark on `p.current_price or p.avg_price`. -/

inductive MonOp where
  | add (id : String) (position_type : String) (avg_price : ℚ)
  | setStopLoss (id : String) (stop_price : ℚ)
  | setTrailingStop (id : String) (trail_pct : ℚ)
  | remove (id : String)
  deriving DecidableEq

/-- One mutation of the position map. -/
def apply_op (m : String → Option MonitoredPosition) :
    MonOp → String → Option MonitoredPosition
  | .add id pt avg => fun k =>
    if k = id then
      some { position_id := id, position_type := pt, avg_price := avg,
             stop_loss_price := none, trailing_stop_pct := none,
             high_water_mark := avg, current_price := avg,
             stop_triggered := false }
    else m k
  | .setStopLoss id sp => fun k =>
    if k = id then
      (m id).map (fun p =>
        { p with stop_loss_price := some sp, trailing_stop_pct := none })
    else m k
  | .setTrailingStop id tp => fun k =>
    if k = id then
      (m id).map (fun p =>
        { p with trailing_stop_pct := some tp, stop_loss_price := none,
                 high_water_mark :=
                   if p.current_price = 0 then p.avg_price
                   else p.current_price })
    else m k
  | .remove id => fun k => if k = id then none else m k

/-- The position map after a sequence of management calls, from empty. -/
def run_ops (ops : List MonOp) : String → Option MonitoredPosition :=
  ops.foldl apply_op (fun _ => none)

/-- At most one stop rule is configured. -/
def StopRuleOK (p : MonitoredPosition) : Prop :=
  p.stop_loss_price = none ∨ p.trailing_stop_pct = none

/-! ## Lemmas and claim theorems -/

lemma msgHas_of_mem {pats : List String} {p msg : String}
    (hm : p ∈ pats) (hp : pyIn p (lowerStr msg) = true) :
    msgHas pats msg = true :=
  List.any_eq_true.mpr ⟨p, hm, hp⟩

/-- C6, counterexample.  The message `"Connection timeout"` contains
`"timeout"` (case-insensitively), yet `_is_transient` of `breeze_api.py`
classifies it as not transient: that pattern set only holds
`"gateway timeout"` and `"read timed out"`, not bare `"timeout"`.  (The
`breeze_api_complete.py` classifier does return true for it.) -/
theorem classifier_timeout_ce :
    pyIn "timeout" (lowerStr "Connection timeout") = true
    ∧ is_transient "Connection timeout" = false
    ∧ is_transient_error "Connection timeout" = true := by
  decide

/-- C6, amended.  Messages containing `"503"`, `"timeout"` or `"429"`
(case-insensitively) are Transient for the `breeze_api_complete.py`
classifier `is_transient_error`; the `breeze_api.py` classifier
`_is_transient` guarantees this only for `"503"` and `"429"` (bare
`"timeout"` is not in its pattern set).  Messages containing
`"unauthorized"` or `"session expired"` are Permanent for both
classifiers. -/
theorem classifier_patterns_amended (msg : String) :
    (pyIn "503" (lowerStr msg) = true ∨ pyIn "timeout" (lowerStr msg) = true
        ∨ pyIn "429" (lowerStr msg) = true →
      is_transient_error msg = true)
    ∧ (pyIn "503" (lowerStr msg) = true ∨ pyIn "429" (lowerStr msg) = true →
      is_transient msg = true)
    ∧ (pyIn "unauthorized" (lowerStr msg) = true
        ∨ pyIn "session expired" (lowerStr msg) = true →
      is_permanent msg = true ∧ is_permanent_error msg = true) := by
  refine ⟨fun h => ?_, fun h => ?_, fun h => ⟨?_, ?_⟩⟩
  · rcases h with h | h | h
    · exact msgHas_of_mem (by decide) h
    · exact msgHas_of_mem (by decide) h
    · exact msgHas_of_mem (by decide) h
  · rcases h with h | h
    · exact msgHas_of_mem (by decide) h
    · exact msgHas_of_mem (by decide) h
  · rcases h with h | h
    · exact msgHas_of_mem (by decide) h
    · exact msgHas_of_mem (by decide) h
  · rcases h with h | h
    · exact msgHas_of_mem (by decide) h
    · exact msgHas_of_mem (by decide) h

/-- Witness for `classifier_patterns_amended` on concrete messages
containing `"timeout"`, `"503"` and `"unauthorized"`. -/
theorem classifier_patterns_amended_witness :
    is_transient_error "Read Timeout reached" = true
    ∧ is_transient "Error 503 from gateway" = true
    ∧ is_permanent "User UNAUTHORIZED" = true
    ∧ is_permanent_error "User UNAUTHORIZED" = true := by
  refine ⟨?_, ?_, ?_, ?_⟩
  · exact (classifier_patterns_amended "Read Timeout reached").1
      (Or.inr (Or.inl (by decide)))
  · exact (classifier_patterns_amended "Error 503 from gateway").2.1
      (Or.inl (by decide))
  · exact ((classifier_patterns_amended "User UNAUTHORIZED").2.2
      (Or.inl (by decide))).1
  · exact ((classifier_patterns_amended "User UNAUTHORIZED").2.2
      (Or.inl (by decide))).2

/-- If every remaining attempt raises a non-permanent exception, the loop
runs out of fuel: it returns the `MAX_RETRIES` dict carrying the last
message and invokes the operation once per remaining iteration. -/
lemma retryLoop_raises_nonperm (m : ℕ → String) (maxA : ℕ) :
    ∀ fuel attempt last_exc, attempt + fuel = maxA + 1 → 1 ≤ fuel →
    (∀ n, attempt ≤ n → n ≤ maxA → is_permanent (m n) = false) →
    retryLoop (fun n => .raises (m n)) maxA attempt fuel last_exc
      = mkMaxRetries maxA (some (m maxA))
    ∧ retryCalls (fun n => .raises (m n)) maxA attempt fuel = fuel := by
  intro fuel
  induction fuel with
  | zero => intro attempt last_exc _ h1 _; exact absurd h1 (by omega)
  | succ f ih =>
    intro attempt last_exc hsum _ hperm
    have hple : attempt ≤ maxA := by omega
    have hp : is_permanent (m attempt) = false := hperm attempt le_rfl hple
    by_cases hlt : attempt < maxA
    · have hrec := ih (attempt + 1) (some (m attempt)) (by omega) (by omega)
        (fun n h₁ h₂ => hperm n (by omega) h₂)
      constructor
      · simp [retryLoop, hp, hlt, hrec.1]
      · simp [retryCalls, hp, hlt, hrec.2]
        try omega
    · have ha : attempt = maxA := by omega
      have hf : f = 0 := by omega
      subst ha hf
      constructor
      · simp [retryLoop, hp, hlt]
      · simp [retryCalls, hp, hlt]

/-- If every remaining attempt returns the same unsuccessful dict whose
message matches a transient pattern, the loop retries until fuel runs out
and then returns that dict unchanged. -/
lemma retryLoop_payload_transient (msg : String) (ec : Option String)
    (maxA : ℕ) (htr : is_transient msg = true) :
    ∀ fuel attempt last_exc, attempt + fuel = maxA + 1 → 1 ≤ fuel →
    retryLoop (fun _ => .returns ⟨false, msg, ec⟩) maxA attempt fuel last_exc
      = ⟨false, msg, ec⟩
    ∧ retryCalls (fun _ => .returns ⟨false, msg, ec⟩) maxA attempt fuel
      = fuel := by
  intro fuel
  induction fuel with
  | zero => intro attempt last_exc _ h1; exact absurd h1 (by omega)
  | succ f ih =>
    intro attempt last_exc hsum _
    by_cases hlt : attempt < maxA
    · have hrec := ih (attempt + 1) last_exc (by omega) (by omega)
      constructor
      · simp [retryLoop, htr, hlt, hrec.1]
      · simp [retryCalls, htr, hlt, hrec.2]
        try omega
    · have ha : attempt = maxA := by omega
      have hf : f = 0 := by omega
      subst ha hf
      constructor
      · simp [retryLoop, hlt]
      · simp [retryCalls, hlt]

/-- A first attempt that raises a permanent-classified exception is
surfaced at once as the `PERMANENT` dict, after exactly one invocation. -/
lemma retry_perm_first (maxA : ℕ) (op : ℕ → AttemptOutcome) (pm : String)
    (hA : 1 ≤ maxA) (hop : op 1 = .raises pm) (hpm : is_permanent pm = true) :
    retry_api_call maxA op = ⟨false, pm, some "PERMANENT"⟩
    ∧ retry_calls maxA op = 1 := by
  obtain ⟨f, rfl⟩ : ∃ f, maxA = f + 1 := ⟨maxA - 1, by omega⟩
  constructor
  · simp only [retry_api_call, retryLoop, hop, hpm]
    simp
  · simp only [retry_calls, retryCalls, hop, hpm]
    simp

/-- A first attempt that returns an unsuccessful dict whose message matches
no transient pattern is returned as-is, after exactly one invocation. -/
lemma retry_payload_nontransient_first (maxA : ℕ) (msg : String)
    (ec : Option String) (hA : 1 ≤ maxA) (htr : is_transient msg = false) :
    retry_api_call maxA (fun _ => .returns ⟨false, msg, ec⟩)
      = ⟨false, msg, ec⟩
    ∧ retry_calls maxA (fun _ => .returns ⟨false, msg, ec⟩) = 1 := by
  obtain ⟨f, rfl⟩ : ∃ f, maxA = f + 1 := ⟨maxA - 1, by omega⟩
  constructor
  · simp only [retry_api_call, retryLoop]
    rw [if_neg (by simp [htr])]
  · simp only [retry_calls, retryCalls]
    rw [if_neg (by simp [htr])]

/-- If every attempt raises a non-permanent exception, the loop invokes the
operation exactly `max_attempts` times. -/
lemma retry_raises_nonperm_all (maxA : ℕ) (msg : String) (hA : 1 ≤ maxA)
    (hp : is_permanent msg = false) :
    retry_api_call maxA (fun _ => .raises msg) = mkMaxRetries maxA (some msg)
    ∧ retry_calls maxA (fun _ => .raises msg) = maxA :=
  retryLoop_raises_nonperm (fun _ => msg) maxA maxA 1 none (by omega) hA
    (fun _ _ _ => hp)

/-- C3.  An operation that raises a Transient-classified fault on every
attempt is invoked exactly `max_attempts` times and the failure dict
carries that attempt count in its message ("Failed after N attempts: …",
error code `MAX_RETRIES`); an operation whose first attempt raises a
Permanent-classified fault is surfaced immediately as the `PERMANENT` dict
after exactly one invocation, regardless of `max_attempts`. -/
theorem retry_executor_attempts (maxA : ℕ) (m : ℕ → String)
    (op : ℕ → AttemptOutcome) (pm : String) (hA : 1 ≤ maxA)
    (ht : ∀ n, 1 ≤ n → n ≤ maxA →
      is_transient (m n) = true ∧ is_permanent (m n) = false)
    (hop : op 1 = .raises pm) (hpm : is_permanent pm = true) :
    (retry_api_call maxA (fun n => .raises (m n))
        = ⟨false, "Failed after " ++ toString maxA ++ " attempts: " ++ m maxA,
           some "MAX_RETRIES"⟩
      ∧ retry_calls maxA (fun n => .raises (m n)) = maxA)
    ∧ (retry_api_call maxA op = ⟨false, pm, some "PERMANENT"⟩
      ∧ retry_calls maxA op = 1) := by
  refine ⟨?_, retry_perm_first maxA op pm hA hop hpm⟩
  have h := retryLoop_raises_nonperm m maxA maxA 1 none (by omega) hA
    (fun n h₁ h₂ => (ht n h₁ h₂).2)
  exact ⟨h.1, h.2⟩

/-- Witness for `retry_executor_attempts` at `max_attempts = 2`, a
persistently-raising transient operation (`"503"`) and a permanent one
(`"unauthorized"`). -/
theorem retry_executor_attempts_witness :
    retry_api_call 2 (fun _ => .raises "503")
        = ⟨false, "Failed after " ++ toString 2 ++ " attempts: " ++ "503",
           some "MAX_RETRIES"⟩
    ∧ retry_calls 2 (fun _ => .raises "503") = 2
    ∧ retry_api_call 2 (fun _ => .raises "unauthorized")
        = ⟨false, "unauthorized", some "PERMANENT"⟩
    ∧ retry_calls 2 (fun _ => .raises "unauthorized") = 1 := by
  have h := retry_executor_attempts 2 (fun _ => "503")
    (fun _ => .raises "unauthorized") "unauthorized" (by omega)
    (fun n _ _ => ⟨show is_transient "503" = true by decide,
      show is_permanent "503" = false by decide⟩) rfl (by decide)
  exact ⟨h.1.1, h.1.2, h.2.1, h.2.2⟩

/-- C4, counterexample.  The retry decision is NOT the same for the two
arrival modes of one and the same error content: the Unknown-classified
message `"strange failure xyz"` (matching no transient and no permanent
pattern) is retried when raised — the operation is invoked twice with
`max_attempts = 2` — but is surfaced immediately after a single invocation
when it arrives as an unsuccessful response payload. -/
theorem retry_arrival_modes_ce :
    retry_calls 2 (fun _ => .raises "strange failure xyz") = 2
    ∧ retry_calls 2 (fun _ => .returns ⟨false, "strange failure xyz", none⟩)
        = 1
    ∧ is_transient "strange failure xyz" = false
    ∧ is_permanent "strange failure xyz" = false := by
  decide

/-- C4, amended.  Transient-classified content is retried while attempts
remain in both arrival modes (the operation runs `max_attempts` times
either way), and Permanent-classified content is not retried in either
mode (one invocation either way); but Unknown content — matching neither
pattern set — is retried when raised and surfaced immediately when it
arrives inside a normally-returned payload. -/
theorem retry_arrival_modes_amended (maxA : ℕ) (msg : String)
    (hA : 1 ≤ maxA) :
    (is_transient msg = true → is_permanent msg = false →
      retry_calls maxA (fun _ => .raises msg) = maxA
      ∧ retry_calls maxA (fun _ => .returns ⟨false, msg, none⟩) = maxA)
    ∧ (is_permanent msg = true → is_transient msg = false →
      retry_calls maxA (fun _ => .raises msg) = 1
      ∧ retry_calls maxA (fun _ => .returns ⟨false, msg, none⟩) = 1)
    ∧ (is_transient msg = false → is_permanent msg = false →
      retry_calls maxA (fun _ => .raises msg) = maxA
      ∧ retry_calls maxA (fun _ => .returns ⟨false, msg, none⟩) = 1) := by
  refine ⟨fun htr hp => ⟨?_, ?_⟩, fun hp htr => ⟨?_, ?_⟩, fun htr hp => ⟨?_, ?_⟩⟩
  · exact (retry_raises_nonperm_all maxA msg hA hp).2
  · exact (retryLoop_payload_transient msg none maxA htr maxA 1 none
      (by omega) hA).2
  · exact (retry_perm_first maxA (fun _ => .raises msg) msg hA rfl hp).2
  · exact (retry_payload_nontransient_first maxA msg none hA htr).2
  · exact (retry_raises_nonperm_all maxA msg hA hp).2
  · exact (retry_payload_nontransient_first maxA msg none hA htr).2

lemma hasKey_filter_false {l : List (String × ℚ)} {k : String}
    (p : String × ℚ → Bool) (h : hasKey l k = false) :
    hasKey (l.filter p) k = false := by
  simp only [hasKey, List.any_eq_false, decide_eq_true_eq] at h ⊢
  exact fun kt hkt => h kt (List.mem_of_mem_filter hkt)

lemma hasKey_release (g : IdempotencyGuard) (k : String) :
    hasKey (release g k).recent k = false := by
  simp only [release, hasKey, List.any_eq_false, decide_eq_true_eq]
  intro kt hkt
  have := (List.mem_filter.mp hkt).2
  simpa using this

/-- `check_and_reserve` returns true exactly when the key is absent from
the pruned table. -/
lemma reserve_true_iff (g : IdempotencyGuard) (k : String) (t : ℚ) :
    (check_and_reserve g k t).1 = true
    ↔ hasKey (g.recent.filter (fun kt => decide (t - kt.2 < g.window))) k
        = false := by
  simp only [check_and_reserve]
  split
  next hcond => simp [hcond]
  next hcond => simp [eq_false_of_ne_true hcond]

/-- Shape of the guard after a successful reservation. -/
lemma reserve_snd_of_true {g : IdempotencyGuard} {k : String} {t : ℚ}
    (h : (check_and_reserve g k t).1 = true) :
    (check_and_reserve g k t).2
      = { g with recent :=
            (k, t) :: g.recent.filter (fun kt => decide (t - kt.2 < g.window)) } := by
  have hk := (reserve_true_iff g k t).mp h
  simp only [check_and_reserve]
  rw [if_neg (by simp [hk])]

/-- A reservation released is gone: reserving the key again succeeds. -/
lemma reserve_after_release (g : IdempotencyGuard) (k : String) (t : ℚ) :
    (check_and_reserve (release g k) k t).1 = true :=
  (reserve_true_iff _ k t).mpr
    (hasKey_filter_false _ (hasKey_release g k))

/-- Within the window, a second reservation of the same key is refused. -/
lemma reserve_again_within (g : IdempotencyGuard) (k : String) (t₁ t₂ : ℚ)
    (h : (check_and_reserve g k t₁).1 = true) (ht : t₂ - t₁ < g.window) :
    (check_and_reserve (check_and_reserve g k t₁).2 k t₂).1 = false := by
  rw [reserve_snd_of_true h]
  set g₁ : IdempotencyGuard :=
    { g with recent :=
        (k, t₁) :: g.recent.filter (fun kt => decide (t₁ - kt.2 < g.window)) }
  have hmem : (k, t₁) ∈ g₁.recent.filter
      (fun kt => decide (t₂ - kt.2 < g₁.window)) :=
    List.mem_filter.mpr ⟨List.mem_cons_self _ _, by simpa using ht⟩
  have hk : hasKey (g₁.recent.filter
      (fun kt => decide (t₂ - kt.2 < g₁.window))) k = true :=
    List.any_eq_true.mpr ⟨(k, t₁), hmem, by simp⟩
  simp only [check_and_reserve]
  split
  next => rfl
  next hcond => exact absurd hk hcond

/-- After the window has fully elapsed, the key can be reserved again. -/
lemma reserve_after_expiry (g : IdempotencyGuard) (k : String) (t₁ t₂ : ℚ)
    (h : (check_and_reserve g k t₁).1 = true) (ht : g.window ≤ t₂ - t₁) :
    (check_and_reserve (check_and_reserve g k t₁).2 k t₂).1 = true := by
  rw [reserve_snd_of_true h]
  have hk₁ : hasKey (g.recent.filter
      (fun kt => decide (t₁ - kt.2 < g.window))) k = false :=
    (reserve_true_iff g k t₁).mp h
  apply (reserve_true_iff _ k t₂).mpr
  rw [List.filter_cons]
  have hdrop : (decide (t₂ - t₁ < g.window)) = false := by
    simpa using not_lt.mpr ht
  simp only [hdrop]
  simpa using hasKey_filter_false _ hk₁

/-- C2.  Reserving a fresh key succeeds; a second reservation of the same
key within the dedup window is refused; after `release`, or once the
window has elapsed since the reservation, reserving the key succeeds
again. -/
theorem idempotency_guard_window (g : IdempotencyGuard) (k : String)
    (t₁ t₂ : ℚ) :
    (hasKey g.recent k = false → (check_and_reserve g k t₁).1 = true)
    ∧ ((check_and_reserve g k t₁).1 = true →
        (t₂ - t₁ < g.window →
          (check_and_reserve (check_and_reserve g k t₁).2 k t₂).1 = false)
        ∧ (g.window ≤ t₂ - t₁ →
          (check_and_reserve (check_and_reserve g k t₁).2 k t₂).1 = true))
    ∧ (check_and_reserve (release (check_and_reserve g k t₁).2 k) k t₂).1
        = true := by
  refine ⟨fun h => ?_, fun h => ⟨fun ht => ?_, fun ht => ?_⟩, ?_⟩
  · exact (reserve_true_iff g k t₁).mpr (hasKey_filter_false _ h)
  · exact reserve_again_within g k t₁ t₂ h ht
  · exact reserve_after_expiry g k t₁ t₂ h ht
  · exact reserve_after_release _ k t₂

/-- Witness for `idempotency_guard_window`: an empty guard with a 60-second
window, reservations at times 0, 30 and 61. -/
theorem idempotency_guard_window_witness :
    (check_and_reserve ⟨[], 60⟩ "k" 0).1 = true
    ∧ (check_and_reserve (check_and_reserve ⟨[], 60⟩ "k" 0).2 "k" 30).1
        = false
    ∧ (check_and_reserve (check_and_reserve ⟨[], 60⟩ "k" 0).2 "k" 61).1
        = true
    ∧ (check_and_reserve
        (release (check_and_reserve ⟨[], 60⟩ "k" 0).2 "k") "k" 30).1
        = true := by
  have h₁ := (idempotency_guard_window ⟨[], 60⟩ "k" 0 30).1 (by decide)
  refine ⟨h₁, ?_, ?_, ?_⟩
  · exact ((idempotency_guard_window ⟨[], 60⟩ "k" 0 30).2.1 h₁).1 (by norm_num)
  · exact ((idempotency_guard_window ⟨[], 60⟩ "k" 0 61).2.1 h₁).2 (by norm_num)
  · exact (idempotency_guard_window ⟨[], 60⟩ "k" 0 30).2.2

/-- C1, counterexample.  An ambiguous post-dispatch failure (`dispatched =
true`, message `"read timed out"`) does NOT leave the reservation held:
`place_order` releases it in its catch-all `except`, and an immediate
second reservation of the same key succeeds — the claim's "the reservation
remains held for the rest of the dedup window" is false at this input. -/
theorem place_order_release_ce :
    (place_order ⟨true⟩ ⟨[], 60⟩ "k" 0 (.raises true "read timed out")).1
      = .resp ⟨false, "Order placement failed: read timed out",
          some "ORDER_FAILED"⟩
    ∧ (check_and_reserve
        (place_order ⟨true⟩ ⟨[], 60⟩ "k" 0
          (.raises true "read timed out")).2.1 "k" 0).1 = true := by
  decide

/-- C1, amended.  `place_order` releases its reservation on every raised
failure of the underlying call, whether or not the transport call was
already dispatched: after any such failure the key can immediately be
reserved again.  The reservation is kept only when the call returns
normally — then a re-reservation within the window is refused. -/
theorem place_order_release_amended (g : IdempotencyGuard) (k : String)
    (now t : ℚ) (d : Bool) (em data : String)
    (h : (check_and_reserve g k now).1 = true) :
    (check_and_reserve
        (place_order ⟨true⟩ g k now (.raises d em)).2.1 k t).1 = true
    ∧ (t - now < g.window →
      (check_and_reserve
        (place_order ⟨true⟩ g k now (.ok data)).2.1 k t).1 = false) := by
  constructor
  · have hpo : (place_order ⟨true⟩ g k now (.raises d em)).2.1
        = release (check_and_reserve g k now).2 k := by
      simp only [place_order]
      rw [if_neg (by simp), if_neg (by simp [h])]
    rw [hpo]
    exact reserve_after_release _ k t
  · intro ht
    have hpo : (place_order ⟨true⟩ g k now (.ok data)).2.1
        = (check_and_reserve g k now).2 := by
      simp only [place_order]
      rw [if_neg (by simp), if_neg (by simp [h])]
    rw [hpo]
    exact reserve_again_within g k now t h ht

/-- Witness for `place_order_release_amended`: fresh guard, window 60,
failure at time 0 and re-reservation attempts at time 10. -/
theorem place_order_release_amended_witness :
    (check_and_reserve
        (place_order ⟨true⟩ ⟨[], 60⟩ "k" 0 (.raises false "502")).2.1
        "k" 10).1 = true
    ∧ (check_and_reserve
        (place_order ⟨true⟩ ⟨[], 60⟩ "k" 0 (.ok "filled")).2.1
        "k" 10).1 = false := by
  have h := place_order_release_amended ⟨[], 60⟩ "k" 0 10 false "502" "filled"
    (by decide)
  exact ⟨h.1, h.2 (by norm_num)⟩

/-- C9, counterexample.  `place_order` on a not-yet-connected client does
not return a structured Permanent outcome: `_require_connection` sits
outside the method's `try`, so the `ConnectionError` escapes the Gateway
boundary to the caller (no token is consumed). -/
theorem gateway_not_connected_ce :
    place_order ⟨false⟩ ⟨[], 60⟩ "k" 0 (.ok "resp")
      = (.raisesOut NOT_CONNECTED, ⟨[], 60⟩, 0) := by
  decide

/-- C9, amended.  Before a successful `connect`, decorated reads return
the structured Permanent "not connected" outcome without consuming a
rate-limiter token (the retry wrapper converts the raised
`ConnectionError`); but the undecorated writes — `place_order`,
`cancel_order`, `modify_order` — let the raised `ConnectionError` escape
to the caller (still without consuming a token, and leaving the
idempotency guard untouched). -/
theorem gateway_not_connected_amended (c : Client) (maxA : ℕ)
    (remote : ℕ → AttemptOutcome) (g : IdempotencyGuard) (k : String)
    (now : ℚ) (call call₂ call₃ : CallResult)
    (hc : c.connected = false) (hA : 1 ≤ maxA) :
    gateway_read c maxA remote
      = (.resp ⟨false, NOT_CONNECTED, some "PERMANENT"⟩, 0)
    ∧ place_order c g k now call = (.raisesOut NOT_CONNECTED, g, 0)
    ∧ cancel_order c call₂ = (.raisesOut NOT_CONNECTED, 0)
    ∧ modify_order c call₃ = (.raisesOut NOT_CONNECTED, 0) := by
  refine ⟨?_, ?_, ?_, ?_⟩
  · have hbody : read_body c remote 1 = .raises NOT_CONNECTED := by
      simp [read_body, hc]
    have hperm : is_permanent NOT_CONNECTED = true := by decide
    have h := retry_perm_first maxA (read_body c remote) NOT_CONNECTED hA
      hbody hperm
    simp [gateway_read, hc, h.1]
  · simp [place_order, hc]
  · simp [cancel_order, hc]
  · simp [modify_order, hc]

/-- Witness for `gateway_not_connected_amended`: a disconnected client,
three retry attempts, a remote that would succeed. -/
theorem gateway_not_connected_amended_witness :
    gateway_read ⟨false⟩ 3 (fun _ => .returns ⟨true, "", none⟩)
      = (.resp ⟨false, NOT_CONNECTED, some "PERMANENT"⟩, 0)
    ∧ cancel_order ⟨false⟩ (.ok "resp") = (.raisesOut NOT_CONNECTED, 0) := by
  have h := gateway_not_connected_amended ⟨false⟩ 3
    (fun _ => .returns ⟨true, "", none⟩) ⟨[], 60⟩ "k" 0
    (.ok "resp") (.ok "resp") (.ok "resp") rfl (by omega)
  exact ⟨h.1, h.2.2.1⟩

/-- A failure in `Closed` state opens the breaker exactly when the bumped
count reaches the threshold. -/
lemma cb_closed_fail (thr fc : ℕ) (rt : ℚ) (lft : Option ℚ) (now : ℚ) :
    cb_call ⟨thr, rt, fc, lft, .Closed⟩ now false
      = (⟨thr, rt, fc + 1, some now,
          if thr ≤ fc + 1 then .Open else .Closed⟩, .failed) := by
  simp [cb_call, cb_on_failure]

/-- An `Open` breaker before the recovery timeout rejects without invoking
the wrapped function and stays put. -/
lemma cb_open_wait (thr fc : ℕ) (rt : ℚ) (lft : Option ℚ) (now : ℚ)
    (b : Bool) (ht : now - lft.getD 0 < rt) :
    cb_call ⟨thr, rt, fc, lft, .Open⟩ now b
      = (⟨thr, rt, fc, lft, .Open⟩, .rejected) := by
  simp only [cb_call]
  rw [if_neg (show ¬(True ∧ rt ≤ now - lft.getD 0) from
    fun hand => absurd hand.2 (not_le.mpr ht))]
  simp

/-- An `Open` breaker after the recovery timeout lets a probe through; its
success closes the breaker and zeroes the count. -/
lemma cb_open_probe_success (thr fc : ℕ) (rt : ℚ) (lft : Option ℚ)
    (now : ℚ) (ht : rt ≤ now - lft.getD 0) :
    cb_call ⟨thr, rt, fc, lft, .Open⟩ now true
      = (⟨thr, rt, 0, lft, .Closed⟩, .succeeded) := by
  simp only [cb_call]
  rw [if_pos (show True ∧ rt ≤ now - lft.getD 0 from ⟨trivial, ht⟩)]
  simp [cb_on_success]

/-- An `Open` breaker after the recovery timeout whose probe fails
re-opens (the count, already at the threshold in every reachable `Open`
state, only grows). -/
lemma cb_open_probe_failure (thr fc : ℕ) (rt : ℚ) (lft : Option ℚ)
    (now : ℚ) (ht : rt ≤ now - lft.getD 0) (hth : thr ≤ fc) :
    cb_call ⟨thr, rt, fc, lft, .Open⟩ now false
      = (⟨thr, rt, fc + 1, some now, .Open⟩, .failed) := by
  simp only [cb_call]
  rw [if_pos (show True ∧ rt ≤ now - lft.getD 0 from ⟨trivial, ht⟩)]
  simp [cb_on_failure, Nat.le_succ_of_le hth]

/-- Every non-rejected successful call zeroes the failure count. -/
lemma cb_success_resets (cb : CircuitBreaker) (now : ℚ)
    (hs : (cb_call cb now true).2 = .succeeded) :
    (cb_call cb now true).1.failure_count = 0 := by
  obtain ⟨thr, rt, fc, lft, st⟩ := cb
  cases st
  · simp [cb_call, cb_on_success]
  · by_cases ht : rt ≤ now - lft.getD 0
    · rw [cb_open_probe_success thr fc rt lft now ht]
    · rw [cb_open_wait thr fc rt lft now true (not_le.mp ht)] at hs
      exact absurd hs (by simp)
  · simp [cb_call, cb_on_success]

/-- `CBInv` is preserved by every step of the breaker. -/
lemma cb_inv_step (cb : CircuitBreaker) (now : ℚ) (b : Bool)
    (hinv : CBInv cb) : CBInv (cb_call cb now b).1 := by
  obtain ⟨thr, rt, fc, lft, st⟩ := cb
  cases st
  · cases b
    · rw [cb_closed_fail]
      intro hst
      by_cases h : thr ≤ fc + 1
      · simpa using h
      · simp [h] at hst
    · simp [cb_call, cb_on_success, CBInv]
  · have hth : thr ≤ fc := hinv (by simp [CBInv])
    by_cases ht : rt ≤ now - lft.getD 0
    · cases b
      · rw [cb_open_probe_failure thr fc rt lft now ht hth]
        intro _
        simpa using Nat.le_succ_of_le hth
      · rw [cb_open_probe_success thr fc rt lft now ht]
        intro hst
        exact absurd rfl hst
    · rw [cb_open_wait thr fc rt lft now b (not_le.mp ht)]
      exact hinv
  · have hth : thr ≤ fc := hinv (by simp [CBInv])
    cases b
    · have h1 : cb_call ⟨thr, rt, fc, lft, .HalfOpen⟩ now false
          = (⟨thr, rt, fc + 1, some now,
              if thr ≤ fc + 1 then .Open else .HalfOpen⟩, .failed) := by
        simp [cb_call, cb_on_failure]
      rw [h1]
      intro _
      simpa using Nat.le_succ_of_le hth
    · have h1 : cb_call ⟨thr, rt, fc, lft, .HalfOpen⟩ now true
          = (⟨thr, rt, 0, lft, .Closed⟩, .succeeded) := by
        simp [cb_call, cb_on_success]
      rw [h1]
      intro hst
      exact absurd rfl hst

/-- C7.  One-step characterisation of the breaker: (1) from `Closed` a
failure opens the breaker exactly when the count reaches the threshold;
(2) while `Open` with the recovery timeout not yet elapsed, every call is
rejected without invoking the wrapped function and the state is untouched;
(3) once the timeout has elapsed the probe goes through — success closes
the breaker and zeroes the count, and failure (given the reachability
invariant `CBInv`) re-opens it; (4) every successful (non-rejected) call
zeroes the failure count, whatever the state; (5) `CBInv` is preserved by
every step and holds for a fresh breaker. -/
theorem circuit_breaker_transitions (cb : CircuitBreaker) (now : ℚ) :
    (cb.state = .Closed →
      ((cb_call cb now false).1.state = .Open
        ↔ cb.failure_threshold ≤ cb.failure_count + 1))
    ∧ (cb.state = .Open →
        now - cb.last_failure_time.getD 0 < cb.recovery_timeout →
      ∀ b, (cb_call cb now b).2 = .rejected ∧ (cb_call cb now b).1 = cb)
    ∧ (cb.state = .Open →
        cb.recovery_timeout ≤ now - cb.last_failure_time.getD 0 →
      ((cb_call cb now true).2 = .succeeded
        ∧ (cb_call cb now true).1.state = .Closed
        ∧ (cb_call cb now true).1.failure_count = 0)
      ∧ (CBInv cb →
        (cb_call cb now false).2 = .failed
        ∧ (cb_call cb now false).1.state = .Open))
    ∧ ((cb_call cb now true).2 = .succeeded →
      (cb_call cb now true).1.failure_count = 0)
    ∧ (∀ b, CBInv cb → CBInv (cb_call cb now b).1)
    ∧ CBInv ⟨cb.failure_threshold, cb.recovery_timeout, 0, none, .Closed⟩ := by
  obtain ⟨thr, rt, fc, lft, st⟩ := cb
  refine ⟨fun hC => ?_, fun hO ht b => ?_, fun hO ht => ⟨?_, fun hinv => ?_⟩,
    cb_success_resets _ now, fun b hinv => cb_inv_step _ now b hinv,
    fun habs => absurd rfl habs⟩
  · cases hC
    rw [cb_closed_fail]
    by_cases h : thr ≤ fc + 1
    · simp [h]
    · simp [h]
  · cases hO
    rw [cb_open_wait thr fc rt lft now b ht]
    exact ⟨rfl, rfl⟩
  · cases hO
    rw [cb_open_probe_success thr fc rt lft now ht]
    exact ⟨rfl, rfl, rfl⟩
  · cases hO
    have hth : thr ≤ fc := hinv (by simp [CBInv])
    rw [cb_open_probe_failure thr fc rt lft now ht hth]
    exact ⟨rfl, rfl⟩

/-- Witness for `circuit_breaker_transitions`: threshold 2, recovery
timeout 60; a breaker one failure short of the threshold trips on the next
failure; an open breaker rejects at 30s, lets the probe through at 61s. -/
theorem circuit_breaker_transitions_witness :
    (cb_call ⟨2, 60, 1, some 0, .Closed⟩ 5 false).1.state = .Open
    ∧ (cb_call ⟨2, 60, 2, some 0, .Open⟩ 30 true).2 = .rejected
    ∧ (cb_call ⟨2, 60, 2, some 0, .Open⟩ 61 true).1.state = .Closed
    ∧ (cb_call ⟨2, 60, 2, some 0, .Open⟩ 61 true).1.failure_count = 0
    ∧ (cb_call ⟨2, 60, 2, some 0, .Open⟩ 61 false).1.state = .Open := by
  refine ⟨?_, ?_, ?_, ?_, ?_⟩
  · exact ((circuit_breaker_transitions ⟨2, 60, 1, some 0, .Closed⟩ 5).1
      rfl).mpr (by norm_num)
  · exact (((circuit_breaker_transitions ⟨2, 60, 2, some 0, .Open⟩ 30).2.1
      rfl (by norm_num)) true).1
  · exact (((circuit_breaker_transitions ⟨2, 60, 2, some 0, .Open⟩ 61).2.2.1
      rfl (by norm_num)).1).2.1
  · exact (((circuit_breaker_transitions ⟨2, 60, 2, some 0, .Open⟩ 61).2.2.1
      rfl (by norm_num)).1).2.2
  · exact (((circuit_breaker_transitions ⟨2, 60, 2, some 0, .Open⟩ 61).2.2.1
      rfl (by norm_num)).2 (fun _ => by norm_num)).2

/-- Draining a bucket holding exactly `n` tokens by `n` unit acquisitions
at its own `last_refill` instant empties it (no refill can occur). -/
lemma acquireN_drain (rate cap interval t₀ : ℚ) (hi : 0 < interval) :
    ∀ n : ℕ, acquireN ⟨rate, cap, interval, (n : ℚ), t₀⟩ t₀ n
      = ⟨rate, cap, interval, 0, t₀⟩ := by
  intro n
  induction n with
  | zero => simp [acquireN]
  | succ k ih =>
    have hk1 : (1 : ℚ) ≤ (k : ℚ) + 1 := by
      have : (0 : ℚ) ≤ (k : ℚ) := Nat.cast_nonneg k
      linarith
    have hstep : (acquire ⟨rate, cap, interval, (k : ℚ) + 1, t₀⟩ t₀ 1).2
        = ⟨rate, cap, interval, (k : ℚ), t₀⟩ := by
      simp only [acquire, tb_refill, sub_self]
      rw [if_neg (not_le.mpr hi)]
      rw [if_pos (show (1 : ℚ) ≤
        ({ rate := rate, capacity := cap, refill_interval := interval,
           tokens := (k : ℚ) + 1, last_refill := t₀ } :
          TokenBucketRateLimiter).tokens from hk1)]
      simp
    have hcast : ((k + 1 : ℕ) : ℚ) = (k : ℚ) + 1 := by push_cast; ring
    rw [hcast]
    show acquireN (acquire ⟨rate, cap, interval, (k : ℚ) + 1, t₀⟩ t₀ 1).2 t₀ k
      = ⟨rate, cap, interval, 0, t₀⟩
    rw [hstep]
    exact ih

/-- C8, counterexample.  Bucket with `rate = 5`, `capacity = 2`,
`refill_interval = 1`: drain both tokens at time 0, wait exactly
`1/rate = 1/5` seconds — `acquire(1)` still returns false, because
`_refill` does nothing until a full `refill_interval` has elapsed. -/
theorem token_bucket_rate_ce :
    (acquire (acquireN ⟨5, ((2 : ℕ) : ℚ), 1, ((2 : ℕ) : ℚ), 0⟩ 0 2)
        (1 / 5 : ℚ) 1).1 = false
    ∧ (acquireN ⟨5, ((2 : ℕ) : ℚ), 1, ((2 : ℕ) : ℚ), 0⟩ 0 2).tokens = 0
    ∧ ((1 : ℚ) / 5) - 0 ≥ 1 / (5 : ℚ) := by
  rw [acquireN_drain 5 ((2 : ℕ) : ℚ) 1 0 (by norm_num) 2]
  refine ⟨?_, rfl, by norm_num⟩
  simp only [acquire, tb_refill]
  rw [if_neg (show ¬((1 : ℚ) ≤ 1 / 5 - 0) from by norm_num)]
  rw [if_neg (show ¬((1 : ℚ) ≤
    ({ rate := 5, capacity := ((2 : ℕ) : ℚ), refill_interval := 1,
       tokens := 0, last_refill := 0 } :
      TokenBucketRateLimiter).tokens) from by norm_num)]

/-- C8, amended.  After acquiring exactly `capacity` tokens with no
wall-clock time elapsed, `acquire(1)` returns false; `acquire(1)` returns
true again only once a full `refill_interval` has elapsed since the drain
(and the refill then grants at least one token, i.e. `elapsed × rate ≥
refill_interval`, with `capacity ≥ 1`) — waiting `1/rate` seconds alone is
not sufficient. -/
theorem token_bucket_refill_amended (c : ℕ) (rate interval t₀ t : ℚ)
    (hc : 1 ≤ c) (hi : 0 < interval) (he₁ : interval ≤ t - t₀)
    (he₂ : interval ≤ (t - t₀) * rate) :
    (acquireN ⟨rate, (c : ℚ), interval, (c : ℚ), t₀⟩ t₀ c).tokens = 0
    ∧ (acquire (acquireN ⟨rate, (c : ℚ), interval, (c : ℚ), t₀⟩ t₀ c) t₀ 1).1
        = false
    ∧ (acquire (acquireN ⟨rate, (c : ℚ), interval, (c : ℚ), t₀⟩ t₀ c) t 1).1
        = true := by
  rw [acquireN_drain rate (c : ℚ) interval t₀ hi c]
  refine ⟨rfl, ?_, ?_⟩
  · simp only [acquire, tb_refill, sub_self]
    rw [if_neg (not_le.mpr hi)]
    rw [if_neg (show ¬((1 : ℚ) ≤
      ({ rate := rate, capacity := (c : ℚ), refill_interval := interval,
         tokens := 0, last_refill := t₀ } :
        TokenBucketRateLimiter).tokens) from by norm_num)]
  · simp only [acquire, tb_refill]
    rw [if_pos (show
      ({ rate := rate, capacity := (c : ℚ), refill_interval := interval,
         tokens := 0, last_refill := t₀ } :
        TokenBucketRateLimiter).refill_interval ≤
        t - ({ rate := rate, capacity := (c : ℚ), refill_interval := interval,
               tokens := 0, last_refill := t₀ } :
              TokenBucketRateLimiter).last_refill from he₁)]
    have h1 : (1 : ℚ) ≤ min (c : ℚ) (0 + ((t - t₀) / interval) * rate) := by
      apply le_min
      · exact_mod_cast hc
      · rw [zero_add, div_mul_eq_mul_div, le_div_iff₀ hi, one_mul]
        exact he₂
    rw [if_pos (show (1 : ℚ) ≤ _ from h1)]

/-- Witness for `token_bucket_refill_amended`: capacity 2, rate 5,
interval 1 second, drained at time 0, retried at time 1. -/
theorem token_bucket_refill_amended_witness :
    (acquireN ⟨5, ((2 : ℕ) : ℚ), 1, ((2 : ℕ) : ℚ), 0⟩ 0 2).tokens = 0
    ∧ (acquire (acquireN ⟨5, ((2 : ℕ) : ℚ), 1, ((2 : ℕ) : ℚ), 0⟩ 0 2) 0 1).1
        = false
    ∧ (acquire (acquireN ⟨5, ((2 : ℕ) : ℚ), 1, ((2 : ℕ) : ℚ), 0⟩ 0 2) 1 1).1
        = true :=
  token_bucket_refill_amended 2 5 1 0 1 (by omega) (by norm_num)
    (by norm_num) (by norm_num)

/-- Witness for `retry_arrival_modes_amended` at `max_attempts = 3` with a
transient message, a permanent message and an unknown message. -/
theorem retry_arrival_modes_amended_witness :
    (retry_calls 3 (fun _ => .raises "503") = 3
      ∧ retry_calls 3 (fun _ => .returns ⟨false, "503", none⟩) = 3)
    ∧ (retry_calls 3 (fun _ => .raises "unauthorized") = 1
      ∧ retry_calls 3 (fun _ => .returns ⟨false, "unauthorized", none⟩) = 1)
    ∧ (retry_calls 3 (fun _ => .raises "odd glitch") = 3
      ∧ retry_calls 3 (fun _ => .returns ⟨false, "odd glitch", none⟩) = 1) :=
  ⟨(retry_arrival_modes_amended 3 "503" (by omega)).1
      (by decide) (by decide),
   (retry_arrival_modes_amended 3 "unauthorized" (by omega)).2.1
      (by decide) (by decide),
   (retry_arrival_modes_amended 3 "odd glitch" (by omega)).2.2
      (by decide) (by decide)⟩

lemma poll_step_fixed_short (pos : MonitoredPosition) (ltp sp : ℚ)
    (ht : pos.stop_triggered = false) (hty : pos.position_type = "short")
    (hsp : pos.stop_loss_price = some sp) (hl : 0 < ltp) :
    (poll_step pos ltp).2 = true ↔ sp ≤ ltp := by
  obtain ⟨pid, pty, avg, slp, tsp, hwm, cp, st⟩ := pos
  simp only at ht hty hsp
  subst ht hty hsp
  by_cases hh : ltp < hwm ∨ hwm ≤ 0 <;>
    by_cases hcmp : sp ≤ ltp <;>
    simp [poll_step, update_price, check_stop, hl, not_le.mpr hl, hcmp, hh]

lemma poll_step_fixed_long (pos : MonitoredPosition) (ltp sp : ℚ)
    (ht : pos.stop_triggered = false) (hty : pos.position_type = "long")
    (hsp : pos.stop_loss_price = some sp) (hl : 0 < ltp) :
    (poll_step pos ltp).2 = true ↔ ltp ≤ sp := by
  obtain ⟨pid, pty, avg, slp, tsp, hwm, cp, st⟩ := pos
  simp only at ht hty hsp
  subst ht hty hsp
  by_cases hh : hwm < ltp <;>
    by_cases hcmp : ltp ≤ sp <;>
    simp [poll_step, update_price, check_stop, hl, not_le.mpr hl, hcmp, hh]

lemma poll_step_trailing_long (pos : MonitoredPosition) (ltp tp : ℚ)
    (ht : pos.stop_triggered = false) (hty : pos.position_type = "long")
    (hsp : pos.stop_loss_price = none) (htp : pos.trailing_stop_pct = some tp)
    (hp : 0 < tp) (hhw : 0 < pos.high_water_mark) (hl : 0 < ltp) :
    (poll_step pos ltp).2 = true
      ↔ ltp ≤ max pos.high_water_mark ltp * (1 - tp) := by
  obtain ⟨pid, pty, avg, slp, tsp, hwm, cp, st⟩ := pos
  simp only at ht hty hsp htp hhw
  subst ht hty hsp htp
  by_cases hfl : hwm < ltp
  · have hmax : max hwm ltp = ltp := max_eq_right (le_of_lt hfl)
    by_cases htr : ltp ≤ ltp * (1 - tp) <;>
      simp [poll_step, update_price, check_stop, hl, not_le.mpr hl, hp, hfl,
        hmax, htr]
  · have hmax : max hwm ltp = hwm := max_eq_left (not_lt.mp hfl)
    by_cases htr : ltp ≤ hwm * (1 - tp) <;>
      simp [poll_step, update_price, check_stop, hl, not_le.mpr hl, hp, hhw,
        hfl, hmax, htr]

lemma poll_step_hwm_long (pos : MonitoredPosition) (ltp : ℚ)
    (ht : pos.stop_triggered = false) (hty : pos.position_type = "long")
    (hl : 0 < ltp) :
    (poll_step pos ltp).1.high_water_mark = max pos.high_water_mark ltp := by
  obtain ⟨pid, pty, avg, slp, tsp, hwm, cp, st⟩ := pos
  simp only at ht hty
  subst ht hty
  by_cases hfl : hwm < ltp
  · have hmax : max hwm ltp = ltp := max_eq_right (le_of_lt hfl)
    simp only [poll_step, update_price, check_stop]
    simp [hl, not_le.mpr hl, hfl, hmax]
    split_ifs <;> simp
  · have hmax : max hwm ltp = hwm := max_eq_left (not_lt.mp hfl)
    simp only [poll_step, update_price, check_stop]
    simp [hl, not_le.mpr hl, hfl, hmax]
    split_ifs <;> simp

lemma poll_step_hwm_short (pos : MonitoredPosition) (ltp : ℚ)
    (ht : pos.stop_triggered = false) (hty : pos.position_type = "short")
    (hhw : 0 < pos.high_water_mark) (hl : 0 < ltp) :
    (poll_step pos ltp).1.high_water_mark = min pos.high_water_mark ltp := by
  obtain ⟨pid, pty, avg, slp, tsp, hwm, cp, st⟩ := pos
  simp only at ht hty hhw
  subst ht hty
  by_cases hfl : ltp < hwm
  · have hmin : min hwm ltp = ltp := min_eq_right (le_of_lt hfl)
    simp only [poll_step, update_price, check_stop]
    simp [hl, not_le.mpr hl, not_le.mpr hhw, hfl, hmin]
    split_ifs <;> simp
  · have hmin : min hwm ltp = hwm := min_eq_left (not_lt.mp hfl)
    simp only [poll_step, update_price, check_stop]
    simp [hl, not_le.mpr hl, not_le.mpr hhw, hfl, hmin]
    split_ifs <;> simp

/-- C5.  Stop evaluation per poll cycle: a short position with a fixed
stop alerts exactly when `stopPrice ≤ price`, a long one exactly when
`price ≤ stopPrice`; a long position with trailing pct `p` alerts exactly
when `price ≤ hwm′ × (1 − p)` where `hwm′ = max hwm price` is the high-
water mark advanced by this reading; the high-water mark is maintained as
the running maximum (long) resp. running minimum (short); a triggered
position is never re-checked; and the long/trailing-50% example over
prices `[100, 150, 90, 70]` alerts exactly at the fourth reading. -/
theorem risk_monitor_stop_rules (pos : MonitoredPosition) (ltp sp tp : ℚ) :
    (pos.stop_triggered = false → pos.position_type = "short" →
      pos.stop_loss_price = some sp → 0 < ltp →
      ((poll_step pos ltp).2 = true ↔ sp ≤ ltp))
    ∧ (pos.stop_triggered = false → pos.position_type = "long" →
      pos.stop_loss_price = some sp → 0 < ltp →
      ((poll_step pos ltp).2 = true ↔ ltp ≤ sp))
    ∧ (pos.stop_triggered = false → pos.position_type = "long" →
      pos.stop_loss_price = none → pos.trailing_stop_pct = some tp →
      0 < tp → 0 < pos.high_water_mark → 0 < ltp →
      ((poll_step pos ltp).2 = true
        ↔ ltp ≤ max pos.high_water_mark ltp * (1 - tp)))
    ∧ (pos.stop_triggered = false → pos.position_type = "long" → 0 < ltp →
      (poll_step pos ltp).1.high_water_mark = max pos.high_water_mark ltp)
    ∧ (pos.stop_triggered = false → pos.position_type = "short" →
      0 < pos.high_water_mark → 0 < ltp →
      (poll_step pos ltp).1.high_water_mark = min pos.high_water_mark ltp)
    ∧ (pos.stop_triggered = true → poll_step pos ltp = (pos, false))
    ∧ run_prices ⟨"p1", "long", 100, none, some (1/2), 100, 100, false⟩
        [100, 150, 90, 70] = [false, false, false, true] := by
  refine ⟨poll_step_fixed_short pos ltp sp,
    poll_step_fixed_long pos ltp sp,
    poll_step_trailing_long pos ltp tp,
    poll_step_hwm_long pos ltp,
    poll_step_hwm_short pos ltp,
    fun ht => by simp [poll_step, ht], ?_⟩
  have h1 : poll_step ⟨"p1", "long", 100, none, some (1/2), 100, 100, false⟩
      100 = (⟨"p1", "long", 100, none, some (1/2), 100, 100, false⟩, false) := by
    simp [poll_step, update_price, check_stop]
    try norm_num
    try decide
  have h2 : poll_step ⟨"p1", "long", 100, none, some (1/2), 100, 100, false⟩
      150 = (⟨"p1", "long", 100, none, some (1/2), 150, 150, false⟩, false) := by
    simp [poll_step, update_price, check_stop]
    try norm_num
    try decide
  have h3 : poll_step ⟨"p1", "long", 100, none, some (1/2), 150, 150, false⟩
      90 = (⟨"p1", "long", 100, none, some (1/2), 150, 90, false⟩, false) := by
    simp [poll_step, update_price, check_stop]
    try norm_num
    try decide
  have h4 : poll_step ⟨"p1", "long", 100, none, some (1/2), 150, 90, false⟩
      70 = (⟨"p1", "long", 100, none, some (1/2), 150, 70, true⟩, true) := by
    simp [poll_step, update_price, check_stop]
    try norm_num
    try decide
  simp only [run_prices, h1, h2, h3, h4]

/-- Witness for `risk_monitor_stop_rules`: a short with fixed stop 150
alerting at 155, a long with fixed stop 90 alerting at 85, the trailing
long of the example alerting at 70, and the four-reading run. -/
theorem risk_monitor_stop_rules_witness :
    (poll_step ⟨"w", "short", 100, some 150, none, 100, 120, false⟩ 155).2
      = true
    ∧ (poll_step ⟨"w", "long", 100, some 90, none, 100, 100, false⟩ 85).2
      = true
    ∧ (poll_step ⟨"w", "long", 100, none, some (1/2), 150, 90, false⟩ 70).2
      = true
    ∧ run_prices ⟨"p1", "long", 100, none, some (1/2), 100, 100, false⟩
        [100, 150, 90, 70] = [false, false, false, true] := by
  refine ⟨?_, ?_, ?_,
    (risk_monitor_stop_rules ⟨"p1", "long", 100, none, some (1/2), 100, 100,
      false⟩ 0 0 0).2.2.2.2.2.2⟩
  · exact ((risk_monitor_stop_rules
      ⟨"w", "short", 100, some 150, none, 100, 120, false⟩ 155 150 0).1
      rfl rfl rfl (by norm_num)).mpr (by norm_num)
  · exact ((risk_monitor_stop_rules
      ⟨"w", "long", 100, some 90, none, 100, 100, false⟩ 85 90 0).2.1
      rfl rfl rfl (by norm_num)).mpr (by norm_num)
  · refine ((risk_monitor_stop_rules
      ⟨"w", "long", 100, none, some (1/2), 150, 90, false⟩ 70 0 (1/2)).2.2.1
      rfl rfl rfl rfl (by norm_num) (by norm_num) (by norm_num)).mpr ?_
    rw [max_eq_left (by norm_num : (70 : ℚ) ≤ 150)]
    norm_num

lemma apply_op_ok (m : String → Option MonitoredPosition) (op : MonOp)
    (hm : ∀ k q, m k = some q → StopRuleOK q) :
    ∀ k q, apply_op m op k = some q → StopRuleOK q := by
  intro k q h
  cases op with
  | add id pt avg =>
    simp only [apply_op] at h
    by_cases hk : k = id
    · rw [if_pos hk] at h
      cases Option.some.inj h
      exact Or.inl rfl
    · rw [if_neg hk] at h
      exact hm k q h
  | setStopLoss id sp =>
    simp only [apply_op] at h
    by_cases hk : k = id
    · rw [if_pos hk] at h
      obtain ⟨p, _, hq⟩ := Option.map_eq_some'.mp h
      cases hq
      exact Or.inr rfl
    · rw [if_neg hk] at h
      exact hm k q h
  | setTrailingStop id tp =>
    simp only [apply_op] at h
    by_cases hk : k = id
    · rw [if_pos hk] at h
      obtain ⟨p, _, hq⟩ := Option.map_eq_some'.mp h
      cases hq
      exact Or.inl rfl
    · rw [if_neg hk] at h
      exact hm k q h
  | remove id =>
    simp only [apply_op] at h
    by_cases hk : k = id
    · rw [if_pos hk] at h
      exact absurd h (by simp)
    · rw [if_neg hk] at h
      exact hm k q h

lemma run_ops_ok : ∀ (ops : List MonOp)
    (m : String → Option MonitoredPosition),
    (∀ k q, m k = some q → StopRuleOK q) →
    ∀ k q, (ops.foldl apply_op m) k = some q → StopRuleOK q := by
  intro ops
  induction ops with
  | nil => intro m hm k q h; exact hm k q h
  | cons op rest ih =>
    intro m hm k q h
    exact ih (apply_op m op) (apply_op_ok m op hm) k q h

/-- C10.  Along every sequence of `add_position` / `set_stop_loss` /
`set_trailing_stop` / `remove_position` calls, every position in the map
has at most one stop rule set (each setter clears the other field); and
`set_trailing_stop` re-bases the high-water mark on the current price,
falling back to the average price when no price has been observed
(`p.current_price or p.avg_price`). -/
theorem monitor_single_stop_rule (ops : List MonOp) (k : String)
    (p : MonitoredPosition) :
    (run_ops ops k = some p →
      p.stop_loss_price = none ∨ p.trailing_stop_pct = none)
    ∧ (∀ (m : String → Option MonitoredPosition) (id : String) (tp : ℚ)
        (q : MonitoredPosition), m id = some q →
      apply_op m (.setTrailingStop id tp) id
        = some ({ q with
            trailing_stop_pct := some tp
            stop_loss_price := none
            high_water_mark :=
              if q.current_price = 0 then q.avg_price
              else q.current_price })) := by
  constructor
  · intro h
    exact run_ops_ok ops (fun _ => none) (by intro _ _ hc; cases hc) k p h
  · intro m id tp q hq
    simp only [apply_op]
    simp [hq]

/-- Witness for `monitor_single_stop_rule`: add a long position at 100,
give it a fixed stop, then switch to a trailing stop — the final position
keeps only the trailing rule, and `set_trailing_stop` rebases the
high-water mark to the current price. -/
theorem monitor_single_stop_rule_witness :
    ((⟨"a", "long", 100, none, some (1/2), 100, 100, false⟩ :
        MonitoredPosition).stop_loss_price = none
      ∨ (⟨"a", "long", 100, none, some (1/2), 100, 100, false⟩ :
        MonitoredPosition).trailing_stop_pct = none)
    ∧ apply_op (fun k => if k = "b" then
          some ⟨"b", "long", 100, none, none, 100, 120, false⟩ else none)
        (.setTrailingStop "b" (1/2)) "b"
        = some ⟨"b", "long", 100, none, some (1/2), 120, 120, false⟩ := by
  constructor
  · exact (monitor_single_stop_rule
      [.add "a" "long" 100, .setStopLoss "a" 90, .setTrailingStop "a" (1/2)]
      "a" ⟨"a", "long", 100, none, some (1/2), 100, 100, false⟩).1
      (by rfl)
  · rw [(monitor_single_stop_rule [] "b"
      ⟨"b", "long", 100, none, none, 100, 120, false⟩).2
      (fun k => if k = "b" then
        some ⟨"b", "long", 100, none, none, 100, 120, false⟩ else none)
      "b" (1/2) ⟨"b", "long", 100, none, none, 100, 120, false⟩
      (by simp)]
    norm_num
